import Mathlib

/-!
Verification of the Halifax-Parking-Ban status-derivation core.

The definitions below are a shallow embedding of the client core in
`src/App.tsx` (the `parseRSSFeed`, `getCachedData`, `setCachedData`,
`fetchStatus` and `calculateCountdown` functions).  Host-environment
primitives (JavaScript `Date`, `String.prototype` methods, `JSON`,
`localStorage`, the DOM parser) are modelled explicitly or taken as
function parameters; the app's own logic is translated line by line.
-/

namespace HalifaxBan

/-! ## JavaScript primitives -/

/-- A JavaScript `Date` runtime value: `some t` is a valid date holding
`t` milliseconds since the epoch, `none` is an Invalid Date (time value
`NaN`). -/
abbrev JSDate := Option Int

/-- JavaScript `a > b` on two `Date` values.  Comparison coerces both
sides to their numeric time value; any comparison involving `NaN`
(an Invalid Date) is `false`. -/
def jsAfter : JSDate → JSDate → Bool
  | some a, some b => decide (b < a)
  | _, _ => false

/-- Whether the character list starting here begins with the pattern. -/
def listBeginsWith : List Char → List Char → Bool
  | _, [] => true
  | [], _ :: _ => false
  | c :: cs, p :: ps => c == p && listBeginsWith cs ps

/-- Whether the pattern occurs contiguously somewhere in the text. -/
def listHasSub : List Char → List Char → Bool
  | [], pat => pat.isEmpty
  | c :: cs, pat => listBeginsWith (c :: cs) pat || listHasSub cs pat

/-- Model of JavaScript `text.includes(pat)`. -/
def strIncludes (text pat : String) : Bool :=
  listHasSub text.toList pat.toList

/-- Model of JavaScript `s.toLowerCase()` (ASCII case folding, which is
all the keyword matching relies on). -/
def strLower (s : String) : String :=
  String.mk (s.toList.map Char.toLower)

/-- Model of JavaScript `s.trim()`: strip whitespace from both ends. -/
def strTrim (s : String) : String :=
  String.mk (((s.toList.dropWhile Char.isWhitespace).reverse.dropWhile
    Char.isWhitespace).reverse)

/-- Model of JavaScript `s.startsWith(pat)`. -/
def strBeginsWith (s pat : String) : Bool :=
  listBeginsWith s.toList pat.toList

/-! ## Data model (`ParkingBanStatus`, feed items) -/

/-- One `<item>` of the feed after DOM extraction (lines 103-105 of
`App.tsx`): each sub-field's `textContent` with the `|| ''` default
already applied, so a missing node is the empty string. -/
structure Item where
  title : String
  description : String
  pubDate : String
  link : String
deriving DecidableEq, Repr

/-- The `ParkingBanStatus` interface (lines 5-14).  `lastUpdate` is a
JavaScript `Date` value. -/
structure BanStatus where
  isActive : Bool
  zone1Active : Bool
  zone2Active : Bool
  enforcementDate : Option String
  enforcementTime : String
  lastUpdate : JSDate
  rawTitle : String
  link : String
deriving DecidableEq, Repr

/-! ## Status classifier (`parseRSSFeed`, lines 93-176) -/

/-- `(title + ' ' + description).toLowerCase()` — the combined search
text built identically at line 110 (selection) and line 139
(classification). -/
def searchTextOf (it : Item) : String :=
  strLower (it.title ++ " " ++ it.description)

/-- Line 111-114: whether an item is about the parking ban. -/
def isParkingBanItem (it : Item) : Bool :=
  let searchText := searchTextOf it
  strIncludes searchText "parking ban" ||
    strIncludes searchText "winter parking" ||
    strIncludes searchText "overnight parking"

/-- Line 142: `isLifted` over the combined lowercase content. -/
def isLiftedText (content : String) : Bool :=
  strIncludes content "lifts" || strIncludes content "lifted"

/-- Lines 143-148: `isEnforced` over the combined lowercase content. -/
def isEnforcedText (content : String) : Bool :=
  strIncludes content "enforced" ||
    strIncludes content "will be enforced" ||
    strIncludes content "in effect" ||
    strIncludes content "declared" ||
    strIncludes content "announcing"

/-- One step of the `items.forEach` selection loop (lines 102-120).
The accumulator is `latestBanItem`/`latestBanDate`; both are `null`
(`none`) or both set, which the source guarantees because lines 117-118
always assign them together.  The guard is
`isParkingBanItem && (!latestBanDate || itemDate > latestBanDate)`;
note that `!latestBanDate` tests for `null` only — a `Date` object is
truthy even when invalid. -/
def selStep (newDate : String → JSDate) (acc : Option (Item × JSDate))
    (it : Item) : Option (Item × JSDate) :=
  let itemDate := newDate it.pubDate
  match acc with
  | none => if isParkingBanItem it then some (it, itemDate) else none
  | some (prev, latestBanDate) =>
      if isParkingBanItem it && jsAfter itemDate latestBanDate then
        some (it, itemDate)
      else some (prev, latestBanDate)

/-- The whole selection loop: fold `selStep` over the items in document
order starting from `latestBanItem = null`.  `newDate` is the host's
`new Date(string)` parser (line 106), returning `none` for an
unparseable string (Invalid Date). -/
def selectLatest (newDate : String → JSDate) (items : List Item) :
    Option (Item × JSDate) :=
  items.foldl (selStep newDate) none

/-- The default status returned at lines 124-133 when no parking-ban
item was found; `now` is the query time (`new Date()` at line 130). -/
def noBanStatus (now : Int) : BanStatus :=
  { isActive := false
    zone1Active := false
    zone2Active := false
    enforcementDate := none
    enforcementTime := "1:00 AM - 6:00 AM"
    lastUpdate := some now
    rawTitle := "No recent parking ban announcements"
    link := "https://www.halifax.ca/transportation/winter-operations/parking-ban" }

/-- `parseRSSFeed` (lines 93-176) on the item list extracted by the DOM
parser.  Parameters model the host environment: `newDate` is
`new Date(string)`, `dateExtract` is the weekday/month regular-expression
match against the title with periods stripped (lines 160-164, abstracted
because no claim depends on the pattern itself), and `now` is the query
time used by the no-announcements default. -/
def parseRSSFeed (newDate : String → JSDate)
    (dateExtract : String → Option String) (now : Int)
    (items : List Item) : BanStatus :=
  match selectLatest newDate items with
  | none => noBanStatus now
  | some (item, latestBanDate) =>
      let content := searchTextOf item
      let isLifted := isLiftedText content
      let isEnforced := isEnforcedText content
      let isActive := isEnforced && !isLifted
      let zone1Mentioned := strIncludes content "zone 1" ||
        strIncludes content "zone 1 – central"
      let zone2Mentioned := strIncludes content "zone 2" ||
        strIncludes content "zone 2 – non-central"
      let bothZones := (zone1Mentioned && zone2Mentioned) ||
        strIncludes content "both zone" ||
        (!zone1Mentioned && !zone2Mentioned)
      { isActive := isActive
        zone1Active := isActive && (zone1Mentioned || bothZones)
        zone2Active := isActive && (zone2Mentioned || bothZones)
        enforcementDate := dateExtract item.title
        enforcementTime := "1:00 AM - 6:00 AM"
        lastUpdate := latestBanDate
        rawTitle := item.title
        link := item.link }

/-! ## Fetch race candidate check (`fetchStatus`, lines 222-246) -/

/-- The per-candidate acceptance check inside the `Promise.any` race
(lines 229-234): the mapped task throws — rejecting that candidate — if
`!response.ok`, and again if `text.trim().startsWith('{')`; otherwise
the body reaches `parseRSSFeed`. -/
def candidateAccepts (ok : Bool) (body : String) : Bool :=
  ok && !(strBeginsWith (strTrim body) "\x7b")

/-- The body a candidate hands to the classifier: `some body` when the
checks pass, `none` when the candidate was rejected. -/
def candidateBody (ok : Bool) (body : String) : Option String :=
  if candidateAccepts ok body then some body else none

/-- Modelled from the spec's words (section 4.1): a response is rejected
if the HTTP status is not successful, or the body is empty, or the body
begins with a JSON object instead of feed markup.  Kept separate from
`candidateAccepts` so the two can be compared. -/
def specRejectsCandidate (ok : Bool) (body : String) : Bool :=
  !ok || (body == "") || strBeginsWith (strTrim body) "\x7b"

/-- The rejection condition the code actually implements: HTTP status
not successful, or trimmed body beginning with a brace.  (The empty
body is not rejected.) -/
def specRejectsCandidateAmended (ok : Bool) (body : String) : Bool :=
  !ok || strBeginsWith (strTrim body) "\x7b"

/-! ## Result cache (`getCachedData` lines 54-78, `setCachedData`
lines 80-90) -/

/-- Cache freshness window, `CACHE_DURATION_MS` (line 29). -/
def CACHE_DURATION_MS : Int := 120000

/-- `ParkingBanStatus` as it sits inside the JSON text in
`localStorage`: every field survives a `JSON.stringify`/`JSON.parse`
round trip unchanged except `lastUpdate`, whose `Date` serializes to its
ISO string (or to JSON `null` for an Invalid Date). -/
structure BanStatusSer where
  isActive : Bool
  zone1Active : Bool
  zone2Active : Bool
  enforcementDate : Option String
  enforcementTime : String
  lastUpdate : Option String
  rawTitle : String
  link : String
deriving DecidableEq, Repr

/-- The `CachedData` interface (lines 31-34) in serialized form. -/
structure CachedDataSer where
  status : BanStatusSer
  timestamp : Int
deriving DecidableEq, Repr

/-- How `JSON.stringify` treats the `status` field of `CachedData`:
`toISO` is the host's `Date.prototype.toISOString`; an Invalid Date
serializes to JSON `null` (here `none`). -/
def serializeStatus (toISO : Int → String) (s : BanStatus) : BanStatusSer :=
  { isActive := s.isActive
    zone1Active := s.zone1Active
    zone2Active := s.zone2Active
    enforcementDate := s.enforcementDate
    enforcementTime := s.enforcementTime
    lastUpdate := s.lastUpdate.map toISO
    rawTitle := s.rawTitle
    link := s.link }

/-- Lines 65-68: rebuild the runtime status from the parsed JSON,
re-parsing `lastUpdate` with `new Date(...)`.  A JSON `null` fed to the
`Date` constructor coerces to the number `0`, i.e. the epoch. -/
def reviveStatus (newDate : String → JSDate) (s : BanStatusSer) : BanStatus :=
  { isActive := s.isActive
    zone1Active := s.zone1Active
    zone2Active := s.zone2Active
    enforcementDate := s.enforcementDate
    enforcementTime := s.enforcementTime
    lastUpdate := match s.lastUpdate with
      | some str => newDate str
      | none => some 0
    rawTitle := s.rawTitle
    link := s.link }

/-- The state of `localStorage` at `CACHE_KEY`: the store may be
unavailable (`getItem`/`setItem` throw, e.g. a SecurityError), the key
may be missing, or it holds some raw string. -/
inductive StoreState where
  | unavailable
  | missing
  | holds (raw : String)
deriving DecidableEq, Repr

/-- The `try` body of `getCachedData` (lines 55-73) with the host's
exceptions made explicit: `localStorage.getItem` throws when the store
is unavailable, and `JSON.parse` (modelled by `jsonParse`, `none` on
invalid JSON) throws a SyntaxError.  Returns the result together with
the store state it leaves behind (line 72 removes an expired entry). -/
def getCachedDataE (jsonParse : String → Option CachedDataSer)
    (newDate : String → JSDate) (store : StoreState) (now : Int) :
    Except String (Option BanStatus × StoreState) :=
  match store with
  | StoreState.unavailable => Except.error "storage unavailable"
  | StoreState.missing => Except.ok (none, store)
  | StoreState.holds raw =>
      match jsonParse raw with
      | none => Except.error "SyntaxError: JSON.parse"
      | some data =>
          if now - data.timestamp < CACHE_DURATION_MS then
            Except.ok (some (reviveStatus newDate data.status), store)
          else
            Except.ok (none, StoreState.missing)

/-- `getCachedData` (lines 54-78): the `catch` at line 74 turns any
thrown error into a `null` result, leaving the store as it was. -/
def getCachedData (jsonParse : String → Option CachedDataSer)
    (newDate : String → JSDate) (store : StoreState) (now : Int) :
    Option BanStatus × StoreState :=
  match getCachedDataE jsonParse newDate store now with
  | Except.ok r => r
  | Except.error _ => (none, store)

/-- The `try` body of `setCachedData` (lines 81-86): build
`{status, timestamp: Date.now()}`, serialize it (`jsonStringify` is the
host's `JSON.stringify` composed with the `Date` handling above) and
write it; `setItem` throws when the store is unavailable. -/
def setCachedDataE (jsonStringify : CachedDataSer → String)
    (toISO : Int → String) (status : BanStatus) (store : StoreState)
    (now : Int) : Except String StoreState :=
  let data : CachedDataSer := { status := serializeStatus toISO status, timestamp := now }
  match store with
  | StoreState.unavailable => Except.error "storage unavailable"
  | _ => Except.ok (StoreState.holds (jsonStringify data))

/-- `setCachedData` (lines 80-90): the `catch` at line 87 swallows any
write failure, leaving the store unchanged. -/
def setCachedData (jsonStringify : CachedDataSer → String)
    (toISO : Int → String) (status : BanStatus) (store : StoreState)
    (now : Int) : StoreState :=
  match setCachedDataE jsonStringify toISO status store now with
  | Except.ok s => s
  | Except.error _ => store

/-! ## Countdown engine (`calculateCountdown`, lines 277-300) -/

/-- `n.toString().padStart(2, '0')`. -/
def pad2 (n : Nat) : String :=
  if n < 10 then "0" ++ toString n else toString n

/-- The zero-padded `HH:MM:SS` rendering of a duration in milliseconds
(lines 295-299). -/
def fmtHMS (diff : Nat) : String :=
  pad2 (diff / 3600000) ++ ":" ++ pad2 (diff % 3600000 / 60000) ++ ":" ++
    pad2 (diff % 60000 / 1000)

/-- `calculateCountdown` (lines 277-300) as a function of the current
local time of day in milliseconds (`msOfDay < 86400000`).  `getHours()`
is `msOfDay / 3600000`; `next1AM` is today's 01:00:00.000
(`setHours(1,0,0,0)`), pushed to tomorrow when the hour is ≥ 6; days are
86 400 000 ms (no DST transition is modelled).  Hours in `[1,6)` short-
circuit to the sentinel before any subtraction. -/
def calculateCountdown (msOfDay : Nat) : String :=
  let hour := msOfDay / 3600000
  if 1 ≤ hour ∧ hour < 6 then "IN EFFECT NOW"
  else
    let next1AM := if 6 ≤ hour then 86400000 + 3600000 else 3600000
    fmtHMS (next1AM - msOfDay)

/-! ## Concurrent refresh collapse (`fetchStatus`, lines 191-259)

JavaScript is single-threaded with run-to-completion scheduling: each
invocation of `fetchStatus` executes its synchronous prefix — the cache
check (line 193), the `fetchInProgressRef` check (line 203), and, when
that ref is `null`, the creation of the fetch promise (which starts the
`Promise.any` race before its first `await`) followed by the assignment
`fetchInProgressRef.current = fetchPromise` (line 248) — atomically,
before any other invocation runs.  Every invocation then awaits the
single in-flight promise (line 205 or line 251), so a rejection of that
promise is observed by every one of them.  `refreshEntry` is that atomic
prefix. -/

/-- Shared state seen by concurrent `fetchStatus` calls. -/
structure FetchSys where
  cacheValid : Bool
  inFlight : Bool
  racesStarted : Nat
  waiters : List Nat
deriving DecidableEq, Repr

/-- The atomic synchronous prefix of one `fetchStatus` invocation by
caller `c` (lines 192-248): served from cache, or registered as a waiter
on the existing in-flight promise, or starting the one new race and
awaiting it. -/
def refreshEntry (c : Nat) (s : FetchSys) : FetchSys :=
  if s.cacheValid then s
  else if s.inFlight then { s with waiters := s.waiters ++ [c] }
  else { s with inFlight := true, racesStarted := s.racesStarted + 1,
                waiters := s.waiters ++ [c] }

/-- Which callers observe a rejection of the in-flight promise: exactly
the registered waiters (the initiator through the `catch` at line 254,
the others through the `catch` at line 210). -/
def failDeliver (s : FetchSys) : List Nat := s.waiters

/-- The initial state for the concurrent-collapse scenario: no valid
cache entry, no in-flight fetch. -/
def fetchSys0 : FetchSys :=
  { cacheValid := false, inFlight := false, racesStarted := 0, waiters := [] }

/-! ## Concrete instances used to exercise the theorems -/

/-- A date parser that treats every string as unparseable. -/
def ndNone : String → JSDate := fun _ => none

/-- A date parser that parses every string to the epoch. -/
def ndZero : String → JSDate := fun _ => some 0

/-- A date-extraction stub (no weekday/month pattern ever matches). -/
def deNone : String → Option String := fun _ => none

/-- A feed item whose text carries both an enforcement keyword and a
lift keyword. -/
def itemBoth : Item :=
  { title := "Overnight parking ban will be enforced"
    description := "Update: the ban was later lifted"
    pubDate := "Tue, 09 Jan 2024 12:00:00 GMT"
    link := "https://example.org/both" }

/-- A relevant item published earlier. -/
def itemEarly : Item :=
  { title := "Winter parking ban declared"
    description := ""
    pubDate := "early"
    link := "https://example.org/early" }

/-- A relevant item published later. -/
def itemLate : Item :=
  { title := "Parking ban lifted"
    description := ""
    pubDate := "late"
    link := "https://example.org/late" }

/-- An irrelevant item (no parking-ban keyword). -/
def itemOther : Item :=
  { title := "Transit detours this weekend"
    description := ""
    pubDate := "late"
    link := "https://example.org/other" }

/-- A relevant item whose publish date does not parse. -/
def itemInvalid : Item :=
  { title := "Overnight parking ban declared"
    description := ""
    pubDate := "not-a-date"
    link := "https://example.org/invalid" }

/-- A date parser giving `itemEarly` the time 10, `itemLate`/`itemOther`
the time 20 and everything else an Invalid Date. -/
def ndTwo : String → JSDate :=
  fun s => if s = "late" then some 20 else if s = "early" then some 10 else none

/-- A status value with a valid `lastUpdate`, for the cache round trip. -/
def statusW : BanStatus :=
  { isActive := true
    zone1Active := true
    zone2Active := true
    enforcementDate := none
    enforcementTime := "1:00 AM - 6:00 AM"
    lastUpdate := some 7
    rawTitle := "Overnight parking ban declared"
    link := "https://example.org/w" }

/-- A concrete ISO serializer for the round-trip instance. -/
def toISOW : Int → String := fun t => toString t

/-- A concrete stringifier for the round-trip instance. -/
def jsonStringifyW : CachedDataSer → String := fun _ => "rawjson"

/-- A concrete JSON parser inverting `jsonStringifyW` on the one value
the round-trip instance stores. -/
def jsonParseW : String → Option CachedDataSer :=
  fun s => if s = "rawjson" then
    some { status := serializeStatus toISOW statusW, timestamp := 50 } else none

/-- A JSON parser that fails on every input (invalid stored JSON). -/
def jsonParseBad : String → Option CachedDataSer := fun _ => none

/-! ## Helper lemmas -/

theorem bool_and_not_self (a b : Bool) : ((a && b) && !a) = false := by
  cases a <;> simp

theorem jsAfter_none_right (d : JSDate) : jsAfter d none = false := by
  cases d <;> rfl

theorem selectLatest_eq_none (newDate : String → JSDate) (items : List Item)
    (h : ∀ it ∈ items, isParkingBanItem it = false) :
    selectLatest newDate items = none := by
  induction items with
  | nil => rfl
  | cons it rest ih =>
      have h1 : isParkingBanItem it = false := h it (List.mem_cons_self it rest)
      have hstep : selStep newDate none it = none := by
        simp [selStep, h1]
      show List.foldl (selStep newDate) none (it :: rest) = none
      rw [List.foldl_cons, hstep]
      exact ih (fun x hx => h x (List.mem_cons_of_mem it hx))

theorem jsAfter_none_left (d : JSDate) : jsAfter none d = false := by
  cases d <;> rfl

theorem foldl_selStep_invalid_latest (newDate : String → JSDate) :
    ∀ (l : List Item) (x : Item),
      List.foldl (selStep newDate) (some (x, none)) l = some (x, none) := by
  intro l
  induction l with
  | nil => intro x; rfl
  | cons it rest ih =>
      intro x
      have hstep : selStep newDate (some (x, none)) it = some (x, none) := by
        simp [selStep, jsAfter_none_right]
      rw [List.foldl_cons, hstep]
      exact ih x

theorem foldl_selStep_valid (newDate : String → JSDate) :
    ∀ (items : List Item) (a : Item) (ta : Int),
      (∀ it ∈ items, isParkingBanItem it = true → (newDate it.pubDate).isSome = true) →
      ∃ b tb, List.foldl (selStep newDate) (some (a, some ta)) items = some (b, some tb) ∧
        ta ≤ tb ∧
        ((b = a ∧ tb = ta) ∨
          (b ∈ items ∧ isParkingBanItem b = true ∧ newDate b.pubDate = some tb)) ∧
        (∀ it ∈ items, isParkingBanItem it = true →
          ∀ u : Int, newDate it.pubDate = some u → u ≤ tb) := by
  intro items
  induction items with
  | nil =>
      intro a ta _
      exact ⟨a, ta, rfl, le_refl ta, Or.inl ⟨rfl, rfl⟩, by simp⟩
  | cons it rest ih =>
      intro a ta hv
      have hvrest : ∀ x ∈ rest, isParkingBanItem x = true →
          (newDate x.pubDate).isSome = true :=
        fun x hx hr => hv x (List.mem_cons_of_mem it hx) hr
      by_cases hrel : isParkingBanItem it = true
      · have hs : (newDate it.pubDate).isSome = true :=
          hv it (List.mem_cons_self it rest) hrel
        obtain ⟨u, hu⟩ : ∃ u, newDate it.pubDate = some u := by
          cases hnd : newDate it.pubDate with
          | none => rw [hnd] at hs; exact absurd hs (by simp)
          | some u => exact ⟨u, rfl⟩
        by_cases hlt : ta < u
        · have hstep : selStep newDate (some (a, some ta)) it = some (it, some u) := by
            simp [selStep, hrel, hu, jsAfter, hlt]
          obtain ⟨b, tb, hfold, hle, hmem, hub⟩ := ih it u hvrest
          refine ⟨b, tb, ?_, by omega, ?_, ?_⟩
          · rw [List.foldl_cons, hstep]; exact hfold
          · rcases hmem with ⟨hb, ht⟩ | ⟨hbmem, hbrel, hbdate⟩
            · exact Or.inr ⟨hb ▸ List.mem_cons_self it rest, hb ▸ hrel,
                by rw [hb, ht]; exact hu⟩
            · exact Or.inr ⟨List.mem_cons_of_mem it hbmem, hbrel, hbdate⟩
          · intro x hx hr v hvv
            rcases List.mem_cons.mp hx with hxit | hxrest
            · subst hxit
              have hvu : v = u := by rw [hu] at hvv; exact (Option.some.inj hvv).symm
              omega
            · exact hub x hxrest hr v hvv
        · have hstep : selStep newDate (some (a, some ta)) it = some (a, some ta) := by
            simp [selStep, hrel, hu, jsAfter, hlt]
          obtain ⟨b, tb, hfold, hle, hmem, hub⟩ := ih a ta hvrest
          refine ⟨b, tb, ?_, hle, ?_, ?_⟩
          · rw [List.foldl_cons, hstep]; exact hfold
          · rcases hmem with h' | ⟨hbmem, hbrel, hbdate⟩
            · exact Or.inl h'
            · exact Or.inr ⟨List.mem_cons_of_mem it hbmem, hbrel, hbdate⟩
          · intro x hx hr v hvv
            rcases List.mem_cons.mp hx with hxit | hxrest
            · subst hxit
              have hvu : v = u := by rw [hu] at hvv; exact (Option.some.inj hvv).symm
              omega
            · exact hub x hxrest hr v hvv
      · have hrel' : isParkingBanItem it = false := by
          cases h : isParkingBanItem it
          · rfl
          · exact absurd h hrel
        have hstep : selStep newDate (some (a, some ta)) it = some (a, some ta) := by
          simp [selStep, hrel']
        obtain ⟨b, tb, hfold, hle, hmem, hub⟩ := ih a ta hvrest
        refine ⟨b, tb, ?_, hle, ?_, ?_⟩
        · rw [List.foldl_cons, hstep]; exact hfold
        · rcases hmem with h' | ⟨hbmem, hbrel, hbdate⟩
          · exact Or.inl h'
          · exact Or.inr ⟨List.mem_cons_of_mem it hbmem, hbrel, hbdate⟩
        · intro x hx hr v hvv
          rcases List.mem_cons.mp hx with hxit | hxrest
          · subst hxit; exact absurd hr (by simp [hrel'])
          · exact hub x hxrest hr v hvv

theorem selectLatest_valid (newDate : String → JSDate) :
    ∀ (items : List Item),
      (∀ it ∈ items, isParkingBanItem it = true → (newDate it.pubDate).isSome = true) →
      ∀ i0 ∈ items, isParkingBanItem i0 = true →
      ∃ b tb, selectLatest newDate items = some (b, some tb) ∧
        b ∈ items ∧ isParkingBanItem b = true ∧ newDate b.pubDate = some tb ∧
        (∀ it ∈ items, isParkingBanItem it = true →
          ∀ u : Int, newDate it.pubDate = some u → u ≤ tb) := by
  intro items
  induction items with
  | nil => intro _ i0 h0; exact absurd h0 (List.not_mem_nil i0)
  | cons it rest ih =>
      intro hv i0 hi0 hrel0
      have hvrest : ∀ x ∈ rest, isParkingBanItem x = true →
          (newDate x.pubDate).isSome = true :=
        fun x hx hr => hv x (List.mem_cons_of_mem it hx) hr
      by_cases hrel : isParkingBanItem it = true
      · have hs : (newDate it.pubDate).isSome = true :=
          hv it (List.mem_cons_self it rest) hrel
        obtain ⟨u, hu⟩ : ∃ u, newDate it.pubDate = some u := by
          cases hnd : newDate it.pubDate with
          | none => rw [hnd] at hs; exact absurd hs (by simp)
          | some u => exact ⟨u, rfl⟩
        have hstep : selStep newDate none it = some (it, some u) := by
          simp [selStep, hrel, hu]
        obtain ⟨b, tb, hfold, hle, hmem, hub⟩ := foldl_selStep_valid newDate rest it u hvrest
        refine ⟨b, tb, ?_, ?_, ?_, ?_, ?_⟩
        · show List.foldl (selStep newDate) none (it :: rest) = some (b, some tb)
          rw [List.foldl_cons, hstep]; exact hfold
        · rcases hmem with ⟨hb, _⟩ | ⟨hbmem, _, _⟩
          · exact hb ▸ List.mem_cons_self it rest
          · exact List.mem_cons_of_mem it hbmem
        · rcases hmem with ⟨hb, _⟩ | ⟨_, hbrel, _⟩
          · exact hb ▸ hrel
          · exact hbrel
        · rcases hmem with ⟨hb, ht⟩ | ⟨_, _, hbdate⟩
          · rw [hb, ht]; exact hu
          · exact hbdate
        · intro x hx hr v hvv
          rcases List.mem_cons.mp hx with hxit | hxrest
          · subst hxit
            have hvu : v = u := by rw [hu] at hvv; exact (Option.some.inj hvv).symm
            omega
          · exact hub x hxrest hr v hvv
      · have hrel' : isParkingBanItem it = false := by
          cases h : isParkingBanItem it
          · rfl
          · exact absurd h hrel
        have hstep : selStep newDate none it = none := by
          simp [selStep, hrel']
        have hi0rest : i0 ∈ rest := by
          rcases List.mem_cons.mp hi0 with h' | h'
          · subst h'; exact absurd hrel0 (by simp [hrel'])
          · exact h'
        obtain ⟨b, tb, hsel, hbmem, hbrel, hbdate, hub⟩ := ih hvrest i0 hi0rest hrel0
        refine ⟨b, tb, ?_, List.mem_cons_of_mem it hbmem, hbrel, hbdate, ?_⟩
        · show List.foldl (selStep newDate) none (it :: rest) = some (b, some tb)
          rw [List.foldl_cons, hstep]; exact hsel
        · intro x hx hr v hvv
          rcases List.mem_cons.mp hx with hxit | hxrest
          · subst hxit; exact absurd hr (by simp [hrel'])
          · exact hub x hxrest hr v hvv

/-! ## Claim theorems -/

/-- Claim C1: every `BanStatus` the classifier produces satisfies
`zone1Active ⇒ isActive` and `zone2Active ⇒ isActive`: the Boolean
products `zoneNActive && !isActive` are `false` for every input feed, so
whenever `isActive` is false both zone flags are false. -/
theorem zone_active_implies_ban_active (newDate : String → JSDate)
    (dateExtract : String → Option String) (now : Int) (items : List Item) :
    ((parseRSSFeed newDate dateExtract now items).zone1Active &&
      !(parseRSSFeed newDate dateExtract now items).isActive) = false ∧
    ((parseRSSFeed newDate dateExtract now items).zone2Active &&
      !(parseRSSFeed newDate dateExtract now items).isActive) = false := by
  cases h : selectLatest newDate items with
  | none => simp [parseRSSFeed, h, noBanStatus]
  | some p =>
      obtain ⟨item, d⟩ := p
      simp only [parseRSSFeed, h]
      exact ⟨bool_and_not_self _ _, bool_and_not_self _ _⟩

/-- Claim C2: if the selected entry's combined lowercase text matches both the
enforcement keyword set and the lift keyword set, the classifier returns
`isActive = false` — the lift keyword overrides the enforcement
keyword. -/
theorem lift_overrides_enforce (newDate : String → JSDate)
    (dateExtract : String → Option String) (now : Int) (items : List Item)
    (it : Item) (d : JSDate)
    (hsel : selectLatest newDate items = some (it, d))
    (hen : isEnforcedText (searchTextOf it) = true)
    (hli : isLiftedText (searchTextOf it) = true) :
    (parseRSSFeed newDate dateExtract now items).isActive = false := by
  simp [parseRSSFeed, hsel, hli]

/-- Witness for C2 at a concrete one-item feed whose entry carries both
keyword kinds. -/
theorem lift_overrides_enforce_witness :
    isEnforcedText (searchTextOf itemBoth) = true ∧
    isLiftedText (searchTextOf itemBoth) = true ∧
    (parseRSSFeed ndZero deNone 0 [itemBoth]).isActive = false :=
  ⟨by decide, by decide,
    lift_overrides_enforce ndZero deNone 0 [itemBoth] itemBoth (some 0)
      (by decide) (by decide) (by decide)⟩

/-- Claim C5: when no entry's combined lowercase title+description contains a
relevance keyword (`isParkingBanItem` is false throughout, which covers
the empty feed), the classifier returns the default status: inactive,
both zones off, no enforcement date, `lastUpdate` equal to the query
time, the sentinel title and the fallback canonical link. -/
theorem no_keyword_yields_default (newDate : String → JSDate)
    (dateExtract : String → Option String) (now : Int) (items : List Item)
    (h : ∀ it ∈ items, isParkingBanItem it = false) :
    parseRSSFeed newDate dateExtract now items =
      { isActive := false
        zone1Active := false
        zone2Active := false
        enforcementDate := none
        enforcementTime := "1:00 AM - 6:00 AM"
        lastUpdate := some now
        rawTitle := "No recent parking ban announcements"
        link := "https://www.halifax.ca/transportation/winter-operations/parking-ban" } := by
  have hsel := selectLatest_eq_none newDate items h
  simp [parseRSSFeed, hsel, noBanStatus]

/-- Witness for C5 at the empty feed. -/
theorem no_keyword_yields_default_witness :
    parseRSSFeed ndZero deNone 5 [] =
      { isActive := false
        zone1Active := false
        zone2Active := false
        enforcementDate := none
        enforcementTime := "1:00 AM - 6:00 AM"
        lastUpdate := some 5
        rawTitle := "No recent parking ban announcements"
        link := "https://www.halifax.ca/transportation/winter-operations/parking-ban" } :=
  no_keyword_yields_default ndZero deNone 5 [] (by simp)

/-- Counterexample for C6: the claim says a response is rejected exactly
when the status is not successful, or the body is empty, or the body
begins with a JSON object — but a successful response with an empty body
is accepted by the code (`candidateAccepts true "" = true`) while the
spec's condition marks it rejected. -/
theorem candidate_reject_claim_cex :
    ¬ (candidateAccepts true "" = !(specRejectsCandidate true "")) := by decide

/-- Amended claim C6: a candidate's response is rejected exactly when the HTTP
status is not successful or the trimmed body begins with a brace; an
empty body is accepted.  A response meeting the rejection condition
never hands a body to the classifier. -/
theorem candidate_reject_exact (ok : Bool) (body : String) :
    candidateAccepts ok body = !(specRejectsCandidateAmended ok body) ∧
    (specRejectsCandidateAmended ok body = true → candidateBody ok body = none) := by
  cases hok : ok <;>
    cases hbw : strBeginsWith (strTrim body) "\x7b" <;>
      simp [candidateBody, candidateAccepts, specRejectsCandidateAmended, hbw]

/-- Witness for C6 at a rejected candidate (unsuccessful status). -/
theorem candidate_reject_exact_witness :
    specRejectsCandidateAmended false "x" = true ∧
    candidateBody false "x" = none :=
  ⟨by decide, (candidate_reject_exact false "x").2 (by decide)⟩

/-- Claim C8: while the ban is active, a current local hour in `[1,6)` makes
the countdown emit the sentinel `IN EFFECT NOW`; otherwise it emits the
zero-padded HH:MM:SS duration to the next upcoming 01:00 — today's
01:00 when the hour is below 1, tomorrow's when the hour is 6 or later —
and in particular 23:30 yields `01:30:00` and 02:00 yields the
sentinel. -/
theorem countdown_rule (ms : Nat) (hms : ms < 86400000) :
    (1 ≤ ms / 3600000 → ms / 3600000 < 6 → calculateCountdown ms = "IN EFFECT NOW") ∧
    (ms / 3600000 < 1 → calculateCountdown ms = fmtHMS (3600000 - ms)) ∧
    (6 ≤ ms / 3600000 → calculateCountdown ms = fmtHMS (86400000 + 3600000 - ms)) ∧
    calculateCountdown 84600000 = "01:30:00" ∧
    calculateCountdown 7200000 = "IN EFFECT NOW" := by
  refine ⟨?_, ?_, ?_, by decide, by decide⟩
  · intro h1 h6
    simp only [calculateCountdown]
    rw [if_pos ⟨h1, h6⟩]
  · intro h
    simp only [calculateCountdown]
    rw [if_neg (by omega), if_neg (by omega)]
  · intro h
    simp only [calculateCountdown]
    rw [if_neg (by omega), if_pos h]

/-- Witness for C8 at local time 23:30:00.000. -/
theorem countdown_rule_witness :
    calculateCountdown 84600000 = fmtHMS (86400000 + 3600000 - 84600000) ∧
    calculateCountdown 84600000 = "01:30:00" :=
  ⟨(countdown_rule 84600000 (by omega)).2.2.1 (by omega),
    (countdown_rule 84600000 (by omega)).2.2.2.1⟩

/-- Claim C9: under JavaScript run-to-completion scheduling, two refresh calls
issued while no valid cache entry exists and no fetch is in flight
start exactly one fetch race, whichever of them runs first; and both
callers are registered as waiters on that single in-flight promise, so
a rejection of the fetch is delivered to both of them rather than being
masked by stale data. -/
theorem concurrent_refresh_collapse (a b : Nat) :
    (refreshEntry b (refreshEntry a fetchSys0)).racesStarted = 1 ∧
    failDeliver (refreshEntry b (refreshEntry a fetchSys0)) = [a, b] := by
  constructor <;> rfl

/-- Claim C3: when every relevant entry of the feed has a validly parseable
publish timestamp and `win` is the relevant entry that is strictly later
than every other relevant entry, the classifier selects `win` — whatever
position the entries occupy in the document, since the item list is
universally quantified — and the derived status carries `win`'s publish
time and title. -/
theorem selects_latest_relevant (newDate : String → JSDate)
    (dateExtract : String → Option String) (now : Int) (items : List Item)
    (win : Item) (t : Int)
    (hv : ∀ it ∈ items, isParkingBanItem it = true → (newDate it.pubDate).isSome = true)
    (hwin : win ∈ items) (hrel : isParkingBanItem win = true)
    (hdate : newDate win.pubDate = some t)
    (hmax : ∀ it ∈ items, isParkingBanItem it = true → it ≠ win →
      jsAfter (some t) (newDate it.pubDate) = true) :
    selectLatest newDate items = some (win, some t) ∧
    (parseRSSFeed newDate dateExtract now items).lastUpdate = some t ∧
    (parseRSSFeed newDate dateExtract now items).rawTitle = win.title := by
  obtain ⟨b, tb, hsel, hbmem, hbrel, hbdate, hub⟩ :=
    selectLatest_valid newDate items hv win hwin hrel
  have htb : t ≤ tb := hub win hwin hrel t hdate
  have hbwin : b = win := by
    by_contra hne
    have hja := hmax b hbmem hbrel hne
    rw [hbdate] at hja
    simp [jsAfter] at hja
    omega
  subst hbwin
  have htbt : tb = t := by
    rw [hdate] at hbdate
    exact (Option.some.inj hbdate).symm
  subst htbt
  exact ⟨hsel, by simp [parseRSSFeed, hsel], by simp [parseRSSFeed, hsel]⟩

/-- Witness for C3: the same two relevant entries, in both document
orders, with the later one selected each time. -/
theorem selects_latest_relevant_witness :
    selectLatest ndTwo [itemEarly, itemLate] = some (itemLate, some 20) ∧
    selectLatest ndTwo [itemLate, itemEarly] = some (itemLate, some 20) :=
  ⟨(selects_latest_relevant ndTwo deNone 0 [itemEarly, itemLate] itemLate 20
      (by decide) (by decide) (by decide) (by decide) (by decide)).1,
    (selects_latest_relevant ndTwo deNone 0 [itemLate, itemEarly] itemLate 20
      (by decide) (by decide) (by decide) (by decide) (by decide)).1⟩

/-- Counterexample for C4: a relevant entry with an unparseable `pubDate`
placed first in the document wins the most-recent selection against a
relevant entry with a valid timestamp that follows it — because
`itemDate > latestBanDate` is `false` whenever either side is an Invalid
Date, nothing ever displaces it.  The claim that such an entry never
wins regardless of document order is therefore false. -/
theorem invalid_date_wins_cex :
    isParkingBanItem itemInvalid = true ∧
    ndTwo itemInvalid.pubDate = none ∧
    isParkingBanItem itemLate = true ∧
    ndTwo itemLate.pubDate = some 20 ∧
    selectLatest ndTwo [itemInvalid, itemLate] = some (itemInvalid, none) ∧
    (parseRSSFeed ndTwo deNone 0 [itemInvalid, itemLate]).rawTitle = itemInvalid.title := by
  decide

/-- Amended claim C4: an entry with an unparseable `pubDate` never displaces a
previously selected entry (it loses every comparison), but when it is
the first relevant entry in document order it is selected, and then no
later entry — valid timestamp or not — displaces it, since every
comparison against an Invalid selected date is also false. -/
theorem invalid_date_selection (newDate : String → JSDate)
    (pre post : List Item) (i j : Item) (prev : Item × JSDate)
    (hpre : ∀ it ∈ pre, isParkingBanItem it = false)
    (hrel : isParkingBanItem i = true)
    (hinv : newDate i.pubDate = none)
    (hj : newDate j.pubDate = none) :
    selStep newDate (some prev) j = some prev ∧
    selectLatest newDate (pre ++ i :: post) = some (i, none) := by
  constructor
  · obtain ⟨p, d⟩ := prev
    simp [selStep, hj, jsAfter_none_left]
  · have h1 : List.foldl (selStep newDate) none pre = none :=
      selectLatest_eq_none newDate pre hpre
    have hstep : selStep newDate none i = some (i, none) := by
      simp [selStep, hrel, hinv]
    show List.foldl (selStep newDate) none (pre ++ i :: post) = some (i, none)
    rw [List.foldl_append, h1, List.foldl_cons, hstep]
    exact foldl_selStep_invalid_latest newDate post i

/-- Witness for C4 (amended) on concrete items: an invalid-dated entry
does not displace a valid selection, and an invalid-dated first relevant
entry stays selected past a later valid entry. -/
theorem invalid_date_selection_witness :
    selStep ndTwo (some (itemLate, some 20)) itemInvalid = some (itemLate, some 20) ∧
    selectLatest ndTwo ([itemOther] ++ itemInvalid :: [itemLate]) =
      some (itemInvalid, none) :=
  invalid_date_selection ndTwo [itemOther] [itemLate] itemInvalid itemInvalid
    (itemLate, some 20) (by decide) (by decide) (by decide) (by decide)

/-- Claim C7: storing a status and reading it back within the 2-minute window
returns the status with `lastUpdate` re-parsed from its text
serialization and every other field unchanged; reading once
`now - timestamp < 120000` no longer holds returns `none`.  `jsonParse`
is assumed to invert `jsonStringify` on the stored record (what
`JSON.parse`/`JSON.stringify` do for this plain record type), and the
store must be reachable (`put` into an unavailable store writes
nothing). -/
theorem cache_round_trip (jsonStringify : CachedDataSer → String)
    (jsonParse : String → Option CachedDataSer) (toISO : Int → String)
    (newDate : String → JSDate) (status : BanStatus) (store : StoreState)
    (now now2 : Int)
    (hstore : store ≠ StoreState.unavailable)
    (hrt : jsonParse (jsonStringify
        { status := serializeStatus toISO status, timestamp := now }) =
      some { status := serializeStatus toISO status, timestamp := now }) :
    (now2 - now < CACHE_DURATION_MS →
      (getCachedData jsonParse newDate
          (setCachedData jsonStringify toISO status store now) now2).1 =
        some (reviveStatus newDate (serializeStatus toISO status))) ∧
    (CACHE_DURATION_MS ≤ now2 - now →
      (getCachedData jsonParse newDate
          (setCachedData jsonStringify toISO status store now) now2).1 = none) ∧
    reviveStatus newDate (serializeStatus toISO status) =
      { status with
        lastUpdate := match status.lastUpdate.map toISO with
          | some str => newDate str
          | none => some 0 } := by
  have hset : setCachedData jsonStringify toISO status store now =
      StoreState.holds (jsonStringify
        { status := serializeStatus toISO status, timestamp := now }) := by
    cases store with
    | unavailable => exact absurd rfl hstore
    | missing => rfl
    | holds raw => rfl
  refine ⟨?_, ?_, ?_⟩
  · intro h
    rw [hset]
    simp [getCachedData, getCachedDataE, hrt, h]
  · intro h
    have hc : ¬ (now2 - now < CACHE_DURATION_MS) := not_lt.mpr h
    rw [hset]
    simp [getCachedData, getCachedDataE, hrt, hc]
  · cases status
    rfl

/-- Witness for C7: a concrete put/get pair ten milliseconds apart. -/
theorem cache_round_trip_witness :
    (getCachedData jsonParseW ndZero
        (setCachedData jsonStringifyW toISOW statusW StoreState.missing 50) 60).1 =
      some (reviveStatus ndZero (serializeStatus toISOW statusW)) :=
  (cache_round_trip jsonStringifyW jsonParseW toISOW ndZero statusW
    StoreState.missing 50 60 (by decide) (by decide)).1 (by decide)

/-- Claim C10: the cache accessors are total at the public interface — an
unavailable store, a missing key or an unparseable stored value all
degrade to a `none` result from `getCachedData`; every error the
`try` body can raise is caught, returning `none` and leaving the store
as it was; and `setCachedData` degrades a write failure to a silent
no-write. -/
theorem cache_accessors_total (jsonParse : String → Option CachedDataSer)
    (jsonStringify : CachedDataSer → String) (toISO : Int → String)
    (newDate : String → JSDate) (now : Int) (status : BanStatus) :
    (getCachedData jsonParse newDate StoreState.unavailable now).1 = none ∧
    (getCachedData jsonParse newDate StoreState.missing now).1 = none ∧
    (∀ raw, jsonParse raw = none →
      (getCachedData jsonParse newDate (StoreState.holds raw) now).1 = none) ∧
    (∀ store e, getCachedDataE jsonParse newDate store now = Except.error e →
      getCachedData jsonParse newDate store now = (none, store)) ∧
    setCachedData jsonStringify toISO status StoreState.unavailable now =
      StoreState.unavailable ∧
    (∀ store e, setCachedDataE jsonStringify toISO status store now = Except.error e →
      setCachedData jsonStringify toISO status store now = store) := by
  refine ⟨rfl, rfl, ?_, ?_, rfl, ?_⟩
  · intro raw hraw
    simp [getCachedData, getCachedDataE, hraw]
  · intro store e herr
    simp [getCachedData, herr]
  · intro store e herr
    simp [setCachedData, herr]

/-- Witness for C10 at an unavailable store and an unparseable stored
value. -/
theorem cache_accessors_total_witness :
    jsonParseBad "garbage" = none ∧
    (getCachedData jsonParseBad ndZero (StoreState.holds "garbage") 0).1 = none ∧
    getCachedDataE jsonParseBad ndZero StoreState.unavailable 0 =
      Except.error "storage unavailable" ∧
    getCachedData jsonParseBad ndZero StoreState.unavailable 0 =
      (none, StoreState.unavailable) := by
  refine ⟨rfl, ?_, rfl, ?_⟩
  · exact (cache_accessors_total jsonParseBad jsonStringifyW toISOW ndZero 0
      statusW).2.2.1 "garbage" rfl
  · exact (cache_accessors_total jsonParseBad jsonStringifyW toISOW ndZero 0
      statusW).2.2.2.1 StoreState.unavailable "storage unavailable" rfl

end HalifaxBan
